import Mathlib

/- Shallow embedding of the cliplet clipboard-manager core:
   src/cliplet/core/clipboard.py (ClipboardItem, ClipboardHistory,
   ClipboardMonitor), src/cliplet/core/daemon.py (ClipboardDaemon) and
   src/cliplet/utils/pid.py (PidManager).  Python strings are Lean
   strings, datetime timestamps are naturals (seconds), and the durable
   history file is modelled explicitly so that persistence effects are
   visible in the state. -/

namespace Cliplet

/-- Model of the Python check `not content.strip()`: a string is blank when
every character is whitespace (this includes the empty string). -/
def isBlank (s : String) : Bool := s.data.all (fun c => c.isWhitespace)

/-- Model of Python `' '.join(content.split())` (clipboard.py line 31):
whitespace runs are collapsed to single spaces, outer whitespace dropped. -/
def collapseWs (s : String) : List Char :=
  List.intercalate [' ']
    ((s.data.splitOnP (fun c => c.isWhitespace)).filter (fun w => w ≠ []))

/-- Helper for the model of Python str.title(): the Bool argument records
whether the previous character was alphabetic. -/
def pyTitleAux : Bool → List Char → List Char
  | _, [] => []
  | prevAlpha, c :: cs =>
    (if c.isAlpha then (if prevAlpha then c.toLower else c.toUpper) else c)
      :: pyTitleAux c.isAlpha cs

/-- Model of Python str.title(): first letter of each word uppercased, the
rest lowercased. -/
def pyTitle (s : String) : String := ⟨pyTitleAux false s.data⟩

/-- Two-digit zero padding, used by the strftime model. -/
def pad2 (n : Nat) : String := if n < 10 then "0" ++ toString n else toString n

/-- Model of datetime.strftime %H:%M:%S on a timestamp counted in seconds. -/
def strftimeHMS (t : Nat) : String :=
  pad2 (t / 3600 % 24) ++ ":" ++ pad2 (t / 60 % 60) ++ ":" ++ pad2 (t % 60)

/-- Decimal digit character for a digit value below ten. -/
def digitChar (d : Nat) : Char := Char.ofNat (48 + d)

/-- Numeric value of a decimal digit character. -/
def digitVal (c : Char) : Nat := c.toNat - 48

/-- Little-endian decimal digits, with explicit fuel so that the kernel can
evaluate it (the fuel argument strictly decreases). -/
def natDigitsAux : Nat → Nat → List Nat
  | 0, _ => []
  | _ + 1, 0 => []
  | fuel + 1, n + 1 => (n + 1) % 10 :: natDigitsAux fuel ((n + 1) / 10)

/-- Little-endian decimal digits of a natural number. -/
def natDigits (n : Nat) : List Nat := natDigitsAux n n

/-- Model of datetime.isoformat on the Nat timestamp model: the decimal
numeral of the timestamp. -/
def isoformat (t : Nat) : String :=
  if t = 0 then "0" else ⟨(natDigits t).reverse.map digitChar⟩

/-- Model of datetime.fromisoformat on the Nat timestamp model: parses a
nonempty all-digit string, and fails (ValueError in Python) otherwise. -/
def fromisoformat (s : String) : Option Nat :=
  if s.data ≠ [] ∧ s.data.all (fun c => c.isDigit) then
    some (s.data.foldl (fun a c => 10 * a + digitVal c) 0)
  else none

/-- Model of ClipboardItem (clipboard.py lines 18-34): content, kind tag,
capture timestamp, and the preview string stored at construction. -/
structure ClipboardItem where
  content : String
  content_type : String
  timestamp : Nat
  preview : String
deriving DecidableEq

/-- Model of ClipboardItem._generate_preview (clipboard.py lines 27-34): for
text, whitespace-collapsed content truncated to 80 characters with an
ellipsis appended when over; otherwise a bracketed kind+time label. -/
def generate_preview (content content_type : String) (timestamp : Nat) : String :=
  if content_type = "text" then
    let preview := collapseWs content
    if preview.length > 80 then String.mk (preview.take 80) ++ "..."
    else String.mk preview
  else
    "[" ++ pyTitle content_type ++ " - " ++ strftimeHMS timestamp ++ "]"

/-- Model of the ClipboardItem constructor (clipboard.py lines 21-25): the
preview field is always derived from the other three fields. -/
def ClipboardItem.make (content content_type : String) (timestamp : Nat) :
    ClipboardItem :=
  { content := content, content_type := content_type, timestamp := timestamp,
    preview := generate_preview content content_type timestamp }

/-- JSON values, for the durable history file. -/
inductive JVal where
  | null
  | bool (b : Bool)
  | num (n : Int)
  | str (s : String)
  | arr (l : List JVal)
  | obj (l : List (String × JVal))

/-- Python exceptions that the history loader can meet. -/
inductive PyErr where
  | keyError
  | valueError
  | typeError
deriving DecidableEq

/-- Python dict lookup on a JSON object, first binding wins. -/
def dictGet (key : String) : List (String × JVal) → Option JVal
  | [] => none
  | (k, v) :: rest => if k = key then some v else dictGet key rest

/-- Model of ClipboardItem.to_dict (clipboard.py lines 36-43). -/
def to_dict (i : ClipboardItem) : JVal :=
  JVal.obj [("content", JVal.str i.content),
            ("content_type", JVal.str i.content_type),
            ("timestamp", JVal.str (isoformat i.timestamp)),
            ("preview", JVal.str i.preview)]

/-- Model of ClipboardItem.from_dict (clipboard.py lines 45-49), following
the Python evaluation order: the timestamp field is read and parsed first,
then content, then content_type; the stored preview field is ignored and
re-derived by the constructor.  A non-dict value raises TypeError, a missing
key KeyError, a non-string timestamp TypeError, an unparseable timestamp
string ValueError.  A non-string content or content_type, which the Python
would only reject later (or not at all), is modelled as TypeError here. -/
def from_dict : JVal → Except PyErr ClipboardItem
  | JVal.obj kvs =>
    match dictGet "timestamp" kvs with
    | none => .error .keyError
    | some (JVal.str ts) =>
      match fromisoformat ts with
      | none => .error .valueError
      | some t =>
        match dictGet "content" kvs with
        | none => .error .keyError
        | some (JVal.str c) =>
          match dictGet "content_type" kvs with
          | none => .error .keyError
          | some (JVal.str k) => .ok (ClipboardItem.make c k t)
          | some _ => .error .typeError
        | some _ => .error .typeError
    | some _ => .error .typeError
  | _ => .error .typeError

/-- State of the durable history file: missing, unreadable (IOError on
open), unparseable (json.JSONDecodeError), or parsed JSON. -/
inductive FileState where
  | missing
  | ioErr
  | invalid
  | json (v : JVal)

/-- Model of ClipboardHistory state (clipboard.py lines 52-59): the in-memory
item list, the cached max_items bound, and the durable file. -/
structure HistoryState where
  items : List ClipboardItem
  max_items : Nat
  file : FileState

/-- Serialization of the item list, as json.dump of the to_dict list. -/
def serializeItems (items : List ClipboardItem) : JVal :=
  JVal.arr (items.map to_dict)

/-- Model of ClipboardHistory.save_history (clipboard.py lines 76-89),
success path: the durable file now holds the serialized list. -/
def save_history (s : HistoryState) : HistoryState :=
  { s with file := FileState.json (serializeItems s.items) }

/-- Model of Python iteration over the top-level JSON value in load_history:
lists yield their elements, dicts yield their keys, strings yield
one-character strings, and other values raise TypeError (not iterable). -/
def pyIter : JVal → Except PyErr (List JVal)
  | JVal.arr l => .ok l
  | JVal.obj kvs => .ok (kvs.map (fun kv => JVal.str kv.1))
  | JVal.str s => .ok (s.data.map (fun c => JVal.str (String.mk [c])))
  | _ => .error .typeError

/-- The list comprehension of load_history line 70: items are converted in
order and the first exception aborts the whole conversion. -/
def mapFromDict : List JVal → Except PyErr (List ClipboardItem)
  | [] => .ok []
  | v :: vs =>
    match from_dict v with
    | .error e => .error e
    | .ok i =>
      match mapFromDict vs with
      | .error e => .error e
      | .ok rest => .ok (i :: rest)

/-- Model of ClipboardHistory.load_history (clipboard.py lines 61-74).  The
except clause catches only json.JSONDecodeError, IOError and KeyError and
then resets the in-memory list to empty; a missing file leaves the current
items untouched; any other exception (TypeError, ValueError) propagates to
the caller, modelled as an error result. -/
def load_history (fs : FileState) (items : List ClipboardItem) :
    Except PyErr (List ClipboardItem) :=
  match fs with
  | .missing => .ok items
  | .ioErr => .ok []
  | .invalid => .ok []
  | .json v =>
    match pyIter v with
    | .error e => .error e
    | .ok vs =>
      match mapFromDict vs with
      | .ok newItems => .ok newItems
      | .error .keyError => .ok []
      | .error e => .error e

/-- Model of the duplicate scan of add_item (clipboard.py lines 105-111):
the first item equal on (content, content_type) is popped and the loop
breaks. -/
def removeFirstMatch (content content_type : String) :
    List ClipboardItem → List ClipboardItem
  | [] => []
  | item :: rest =>
    if item.content = content ∧ item.content_type = content_type then rest
    else item :: removeFirstMatch content content_type rest

/-- Model of the configuration keys the core reads (defaults.py). -/
structure Config where
  min_text_length : Nat
  max_text_length : Nat
  exclude_passwords : Bool
  max_history_items : Nat

/-- Model of ClipboardHistory.add_item (clipboard.py lines 91-125): validate
content, drop the first duplicate, insert a fresh item at the head, trim to
max_items from the tail, persist, and return the inserted item. -/
def add_item (cfg : Config) (s : HistoryState) (content content_type : String)
    (now : Nat) : Option ClipboardItem × HistoryState :=
  if content = "" ∨ isBlank content = true then (none, s)
  else if content.length < cfg.min_text_length ∨
      content.length > cfg.max_text_length then (none, s)
  else
    let deduped := removeFirstMatch content content_type s.items
    let new_item := ClipboardItem.make content content_type now
    let inserted := new_item :: deduped
    let trimmed :=
      if inserted.length > s.max_items then inserted.take s.max_items
      else inserted
    (some new_item, save_history { s with items := trimmed })

/-- Model of ClipboardHistory.clear_history (clipboard.py lines 127-131). -/
def clear_history (s : HistoryState) : HistoryState :=
  save_history { s with items := [] }

/-- Model of ClipboardHistory.get_items (clipboard.py lines 133-137):
copy-out view, optionally capped. -/
def get_items (s : HistoryState) (limit : Option Nat) : List ClipboardItem :=
  match limit with
  | none => s.items
  | some n => s.items.take n

/-- Folding a sequence of add_item calls (content, kind, timestamp). -/
def record_seq (cfg : Config) (s : HistoryState) :
    List (String × String × Nat) → HistoryState
  | [] => s
  | (c, k, t) :: rest => record_seq cfg (add_item cfg s c k t).2 rest

/-- Model of ClipboardMonitor state (clipboard.py lines 143-151): the owned
history, the last observed clipboard content, and the monitoring flag. -/
structure MonitorState where
  history : HistoryState
  last_content : String
  monitoring : Bool

/-- Model of ClipboardMonitor._should_exclude_content (clipboard.py lines
174-184): with exclusion enabled, content shorter than 50 characters that
contains one of the fixed punctuation symbols is treated as a password. -/
def should_exclude_content (cfg : Config) (content : String) : Bool :=
  cfg.exclude_passwords &&
    (content.length < 50 &&
      "!@#$%^&*".data.any (fun ch => content.data.contains ch))

/-- Model of ClipboardMonitor._on_clipboard_text_ready (clipboard.py lines
194-218): a failed read or falsy/unchanged content is a no-op; excluded
content is dropped before last_content is updated and before any record
call; otherwise the content is recorded and the new item returned. -/
def on_clipboard_text_ready (cfg : Config) (m : MonitorState)
    (res : Option String) (now : Nat) : MonitorState × Option ClipboardItem :=
  match res with
  | none => (m, none)
  | some content =>
    if content = "" then (m, none)
    else if content = m.last_content then (m, none)
    else if should_exclude_content cfg content then (m, none)
    else
      let r := add_item cfg m.history content "text" now
      ({ m with history := r.2, last_content := content }, r.1)

/-- Feeding a sequence of clipboard readings to the monitor. -/
def feed_seq (cfg : Config) (m : MonitorState) :
    List (String × Nat) → MonitorState
  | [] => m
  | (c, t) :: rest =>
    feed_seq cfg (on_clipboard_text_ready cfg m (some c) t).1 rest

/-- Errors PidManager.create can signal (pid.py lines 26-48): the
already-running conflict (a PidManagerError whose message carries the
recorded PID) or the I/O failure wrapped by the except clause. -/
inductive PidError where
  | alreadyRunning (pid : Option Int)
  | createFailed
deriving DecidableEq

/-- State of the PID marker file: the recorded process id, or none when the
file is missing or unreadable as an integer (pid.py get_pid). -/
structure PidState where
  marker : Option Int
deriving DecidableEq

/-- Model of PidManager.get_pid (pid.py lines 63-76). -/
def get_pid (st : PidState) : Option Int := st.marker

/-- Model of PidManager.is_running (pid.py lines 78-98): probes liveness of
the recorded pid with signal 0; a stale marker is auto-removed. -/
def is_running (alive : Int → Bool) (st : PidState) : Bool × PidState :=
  match st.marker with
  | none => (false, st)
  | some p => if alive p then (true, st) else (false, ⟨none⟩)

/-- Model of PidManager.create (pid.py lines 26-48): if a live process is
recorded, raise the already-running conflict carrying the recorded pid
(re-read by get_pid); on OS-level write failure, raise the wrapped I/O
error; otherwise write the current pid to the marker. -/
def create (alive : Int → Bool) (cur : Int) (writeFails : Bool)
    (st : PidState) : Except PidError PidState :=
  let r := is_running alive st
  if r.1 then .error (.alreadyRunning (get_pid r.2))
  else if writeFails then .error .createFailed
  else .ok ⟨some cur⟩

/-- Model of ClipboardDaemon state (daemon.py lines 22-38): running flag,
the monitor's monitoring flag, the owned history, and the config. -/
structure DaemonState where
  running : Bool
  monitoring : Bool
  history : HistoryState
  config : Config

/-- Model of ClipboardDaemon.reload_config (daemon.py lines 146-159),
success path: the config is re-read and only the history's max_items bound
is pushed into the store. -/
def reload_config (d : DaemonState) (newCfg : Config) : DaemonState :=
  { d with config := newCfg,
           history := { d.history with max_items := newCfg.max_history_items } }

/- Helper lemmas. -/

theorem natDigitsAux_eq (fuel : Nat) : ∀ n : Nat, n ≤ fuel →
    natDigitsAux fuel n = Nat.digits 10 n := by
  induction fuel with
  | zero =>
    intro n hn
    interval_cases n
    rw [natDigitsAux, Nat.digits_zero]
  | succ f ih =>
    intro n hn
    cases n with
    | zero => rw [natDigitsAux, Nat.digits_zero]
    | succ m =>
      rw [natDigitsAux, ih ((m + 1) / 10) (by omega),
        ← Nat.digits_def' (by norm_num : 1 < 10) (Nat.succ_pos m)]

theorem natDigits_eq (n : Nat) : natDigits n = Nat.digits 10 n :=
  natDigitsAux_eq n n le_rfl

theorem digitChar_isDigit {d : Nat} (h : d < 10) : (digitChar d).isDigit = true := by
  interval_cases d <;> decide

theorem digitVal_digitChar {d : Nat} (h : d < 10) : digitVal (digitChar d) = d := by
  interval_cases d <;> decide

theorem foldl_digitChars (L : List Nat) : ∀ a : Nat, (∀ d ∈ L, d < 10) →
    (L.map digitChar).foldl (fun a c => 10 * a + digitVal c) a
      = L.foldl (fun a d => 10 * a + d) a := by
  induction L with
  | nil => intro a _; rfl
  | cons d L ih =>
    intro a h
    simp only [List.map_cons, List.foldl_cons]
    rw [digitVal_digitChar (h d (List.mem_cons_self d L))]
    exact ih _ (fun x hx => h x (List.mem_cons_of_mem _ hx))

theorem foldr_horner (L : List Nat) :
    L.foldr (fun d a => 10 * a + d) 0 = Nat.ofDigits 10 L := by
  induction L with
  | nil => rfl
  | cons d L ih =>
    simp only [List.foldr_cons, Nat.ofDigits_cons, ih]
    ring

theorem fromisoformat_isoformat (t : Nat) : fromisoformat (isoformat t) = some t := by
  rcases Nat.eq_zero_or_pos t with h0 | hpos
  · subst h0; rfl
  · have ht : t ≠ 0 := Nat.pos_iff_ne_zero.mp hpos
    have hd : ∀ d ∈ natDigits t, d < 10 := by
      rw [natDigits_eq]
      exact fun d hd => Nat.digits_lt_base (by norm_num) hd
    have hne : natDigits t ≠ [] := by
      rw [natDigits_eq]
      exact Nat.digits_ne_nil_iff_ne_zero.mpr ht
    rw [isoformat, if_neg ht, fromisoformat]
    have hdata : (String.mk ((natDigits t).reverse.map digitChar)).data
        = (natDigits t).reverse.map digitChar := rfl
    rw [if_pos]
    · congr 1
      rw [hdata, foldl_digitChars _ _ (fun d hd' => hd d (List.mem_reverse.mp hd')),
        List.foldl_reverse, foldr_horner, natDigits_eq, Nat.ofDigits_digits]
    · constructor
      · rw [hdata]
        simp only [ne_eq, List.map_eq_nil_iff, List.reverse_eq_nil_iff]
        exact hne
      · rw [hdata]
        simp only [List.all_eq_true, List.mem_map, List.mem_reverse]
        rintro c ⟨d, hdm, rfl⟩
        exact digitChar_isDigit (hd d hdm)

@[simp] theorem save_history_items (s : HistoryState) :
    (save_history s).items = s.items := rfl

@[simp] theorem save_history_max (s : HistoryState) :
    (save_history s).max_items = s.max_items := rfl

theorem add_item_none (cfg : Config) (s : HistoryState) (c k : String) (t : Nat)
    (h : c = "" ∨ isBlank c = true ∨ c.length < cfg.min_text_length ∨
      c.length > cfg.max_text_length) :
    add_item cfg s c k t = (none, s) := by
  unfold add_item
  split
  · rfl
  · rename_i hc
    rw [if_pos]
    rcases h with h | h | h | h
    · exact absurd (Or.inl h) hc
    · exact absurd (Or.inr h) hc
    · exact Or.inl h
    · exact Or.inr h

theorem add_item_some (cfg : Config) (s : HistoryState) (c k : String) (t : Nat)
    (hv : ¬(c = "" ∨ isBlank c = true))
    (hl : ¬(c.length < cfg.min_text_length ∨ c.length > cfg.max_text_length)) :
    add_item cfg s c k t =
      (some (ClipboardItem.make c k t),
       save_history { s with items :=
         (ClipboardItem.make c k t :: removeFirstMatch c k s.items).take s.max_items }) := by
  unfold add_item
  rw [if_neg hv, if_neg hl]
  refine congrArg (fun l => (some (ClipboardItem.make c k t),
    save_history { s with items := l })) ?_
  split
  · rfl
  · rename_i hlen
    exact (List.take_of_length_le (by omega)).symm

theorem add_item_max_items (cfg : Config) (s : HistoryState) (c k : String) (t : Nat) :
    ((add_item cfg s c k t).2).max_items = s.max_items := by
  unfold add_item
  split
  · rfl
  · split
    · rfl
    · rfl

theorem add_item_length_le (cfg : Config) (s : HistoryState) (c k : String) (t : Nat)
    (h : s.items.length ≤ s.max_items) :
    ((add_item cfg s c k t).2).items.length ≤ s.max_items := by
  by_cases hv : c = "" ∨ isBlank c = true
  · rw [add_item_none cfg s c k t (hv.elim (fun h1 => Or.inl h1)
      (fun h1 => Or.inr (Or.inl h1)))]
    exact h
  · by_cases hl : c.length < cfg.min_text_length ∨ c.length > cfg.max_text_length
    · rw [add_item_none cfg s c k t (Or.inr (Or.inr hl))]
      exact h
    · rw [add_item_some cfg s c k t hv hl]
      simp only [save_history_items, List.length_take]
      omega

theorem add_item_some_length (cfg : Config) (s : HistoryState) (c k : String)
    (t : Nat) (item : ClipboardItem) (s' : HistoryState)
    (h : add_item cfg s c k t = (some item, s')) :
    s'.items.length ≤ s.max_items := by
  by_cases hv : c = "" ∨ isBlank c = true
  · rw [add_item_none cfg s c k t (hv.elim (fun h1 => Or.inl h1)
      (fun h1 => Or.inr (Or.inl h1)))] at h
    exact absurd (congrArg Prod.fst h) (by simp)
  · by_cases hl : c.length < cfg.min_text_length ∨ c.length > cfg.max_text_length
    · rw [add_item_none cfg s c k t (Or.inr (Or.inr hl))] at h
      exact absurd (congrArg Prod.fst h) (by simp)
    · rw [add_item_some cfg s c k t hv hl] at h
      have h2 := congrArg Prod.snd h
      simp only at h2
      rw [← h2]
      simp only [save_history_items, List.length_take]
      omega

theorem record_seq_max (cfg : Config) (inputs : List (String × String × Nat)) :
    ∀ s : HistoryState, (record_seq cfg s inputs).max_items = s.max_items := by
  induction inputs with
  | nil => intro s; rfl
  | cons p rest ih =>
    intro s
    obtain ⟨c, k, t⟩ := p
    rw [record_seq, ih, add_item_max_items]

theorem record_seq_length (cfg : Config) (inputs : List (String × String × Nat)) :
    ∀ s : HistoryState, s.items.length ≤ s.max_items →
      (record_seq cfg s inputs).items.length ≤ s.max_items := by
  induction inputs with
  | nil => intro s h; exact h
  | cons p rest ih =>
    intro s h
    obtain ⟨c, k, t⟩ := p
    rw [record_seq]
    have h1 := add_item_length_le cfg s c k t h
    have h2 := add_item_max_items cfg s c k t
    have := ih (add_item cfg s c k t).2 (by rw [h2]; exact h1)
    rwa [h2] at this

/-- Number of entries of a list agreeing with a (content, content_type) pair. -/
def pairCount (c k : String) (l : List ClipboardItem) : Nat :=
  l.countP (fun i => decide (i.content = c ∧ i.content_type = k))

theorem pairCount_cons (c k : String) (i : ClipboardItem) (l : List ClipboardItem) :
    pairCount c k (i :: l) =
      pairCount c k l + if i.content = c ∧ i.content_type = k then 1 else 0 := by
  by_cases h : i.content = c ∧ i.content_type = k
  · simp [pairCount, List.countP_cons, h]
  · simp [pairCount, List.countP_cons, h]

theorem pairCount_removeFirstMatch (c k : String) (l : List ClipboardItem)
    (h : pairCount c k l ≤ 1) : pairCount c k (removeFirstMatch c k l) = 0 := by
  induction l with
  | nil => rfl
  | cons i rest ih =>
    have hc := pairCount_cons c k i rest
    rw [removeFirstMatch]
    by_cases hm : i.content = c ∧ i.content_type = k
    · rw [if_pos hm]
      rw [if_pos hm] at hc
      omega
    · rw [if_neg hm]
      rw [if_neg hm] at hc
      rw [pairCount_cons, if_neg hm]
      have := ih (by omega)
      omega

theorem pairCount_take_le (c k : String) (l : List ClipboardItem) (n : Nat) :
    pairCount c k (l.take n) ≤ pairCount c k l :=
  (List.take_sublist n l).countP_le _

theorem pairCount_make (c k : String) (t : Nat) (l : List ClipboardItem) :
    pairCount c k (ClipboardItem.make c k t :: l) = pairCount c k l + 1 := by
  rw [pairCount_cons, if_pos ⟨rfl, rfl⟩]

theorem from_dict_entry (c k : String) (t : Nat) (junk : String) :
    from_dict (JVal.obj [("content", JVal.str c), ("content_type", JVal.str k),
      ("timestamp", JVal.str (isoformat t)), ("preview", JVal.str junk)]) =
      .ok (ClipboardItem.make c k t) := by
  have h1 : from_dict (JVal.obj [("content", JVal.str c), ("content_type", JVal.str k),
      ("timestamp", JVal.str (isoformat t)), ("preview", JVal.str junk)]) =
      (match fromisoformat (isoformat t) with
       | none => Except.error PyErr.valueError
       | some t' => Except.ok (ClipboardItem.make c k t')) := rfl
  rw [h1, fromisoformat_isoformat]

theorem from_dict_to_dict (i : ClipboardItem)
    (h : i = ClipboardItem.make i.content i.content_type i.timestamp) :
    from_dict (to_dict i) = .ok i := by
  have ht : to_dict i = JVal.obj [("content", JVal.str i.content),
      ("content_type", JVal.str i.content_type),
      ("timestamp", JVal.str (isoformat i.timestamp)),
      ("preview", JVal.str i.preview)] := rfl
  rw [ht, from_dict_entry, ← h]

theorem mapFromDict_map_to_dict (l : List ClipboardItem)
    (h : ∀ i ∈ l, i = ClipboardItem.make i.content i.content_type i.timestamp) :
    mapFromDict (l.map to_dict) = .ok l := by
  induction l with
  | nil => rfl
  | cons i rest ih =>
    have hi : from_dict (to_dict i) = Except.ok i :=
      from_dict_to_dict i (h i (List.mem_cons_self i rest))
    have hr : mapFromDict (rest.map to_dict) = Except.ok rest :=
      ih (fun j hj => h j (List.mem_cons_of_mem i hj))
    simp only [List.map_cons, mapFromDict, hi, hr]

theorem excluded_drop (cfg : Config) (m : MonitorState) (content : String)
    (now : Nat) (hex : cfg.exclude_passwords = true)
    (hlen : content.length < 50)
    (hsym : ∃ ch ∈ "!@#$%^&*".data, ch ∈ content.data) :
    on_clipboard_text_ready cfg m (some content) now = (m, none) := by
  have hred : on_clipboard_text_ready cfg m (some content) now =
      (if content = "" then (m, none)
       else if content = m.last_content then (m, none)
       else if should_exclude_content cfg content = true then (m, none)
       else (MonitorState.mk (add_item cfg m.history content "text" now).2
               content m.monitoring,
             (add_item cfg m.history content "text" now).1)) := rfl
  rw [hred]
  by_cases h0 : content = ""
  · rw [if_pos h0]
  · rw [if_neg h0]
    by_cases h1 : content = m.last_content
    · rw [if_pos h1]
    · rw [if_neg h1]
      have hexc : should_exclude_content cfg content = true := by
        unfold should_exclude_content
        rw [hex]
        simp only [Bool.true_and, Bool.and_eq_true, decide_eq_true_eq,
          List.any_eq_true]
        obtain ⟨ch, hch, hin⟩ := hsym
        exact ⟨hlen, ch, hch, by simpa [List.contains] using hin⟩
      rw [if_pos hexc]

theorem feed_seq_excluded (cfg : Config) (hex : cfg.exclude_passwords = true)
    (inputs : List (String × Nat)) : ∀ m : MonitorState,
    (∀ p ∈ inputs, p.1.length < 50 ∧ ∃ ch ∈ "!@#$%^&*".data, ch ∈ p.1.data) →
    feed_seq cfg m inputs = m := by
  induction inputs with
  | nil => intro m _; rfl
  | cons p rest ih =>
    intro m h
    obtain ⟨c, t⟩ := p
    obtain ⟨hlen, hsym⟩ := h (c, t) (List.mem_cons_self (c, t) rest)
    rw [feed_seq, excluded_drop cfg m c t hex hlen hsym]
    exact ih m (fun q hq => h q (List.mem_cons_of_mem (c, t) hq))

/- Concrete fixtures used by the witnesses. -/

def cfgDefault : Config := ⟨1, 10000, true, 25⟩

def cfgSmall : Config := ⟨1, 10000, true, 2⟩

def storeABC : HistoryState :=
  ⟨[ClipboardItem.make "a" "text" 1, ClipboardItem.make "b" "text" 2,
    ClipboardItem.make "c" "text" 3], 3, FileState.missing⟩

def daemonW : DaemonState :=
  ⟨true, true, ⟨[ClipboardItem.make "a" "text" 1, ClipboardItem.make "b" "text" 2,
    ClipboardItem.make "c" "text" 3], 25, FileState.missing⟩, cfgDefault⟩

def reloadedStoreW : HistoryState := (reload_config daemonW cfgSmall).history

def trimmedZZ : List ClipboardItem :=
  (ClipboardItem.make "zz" "text" 9 ::
    removeFirstMatch "zz" "text" reloadedStoreW.items).take reloadedStoreW.max_items

/- Claim theorems. -/

/-- C1: for every sequence of record (add_item) calls on a history store
configured with maximum max_history_items, the length of the in-memory items
list after each call is at most max_history_items (every prefix of an input
sequence is itself an input sequence, so the bound holds after each call). -/
theorem history_length_bounded (cfg : Config) (f0 : FileState)
    (inputs : List (String × String × Nat)) :
    (record_seq cfg ⟨[], cfg.max_history_items, f0⟩ inputs).items.length ≤
      cfg.max_history_items :=
  record_seq_length cfg inputs ⟨[], cfg.max_history_items, f0⟩ (Nat.zero_le _)

/-- C2: record (add_item) fails closed: for empty, all-whitespace, too-short
or too-long content, the call returns none and leaves the whole history
state, the in-memory items list and the persisted file included, unchanged. -/
theorem record_fails_closed (cfg : Config) (s : HistoryState)
    (content content_type : String) (now : Nat)
    (h : content = "" ∨ isBlank content = true ∨
      content.length < cfg.min_text_length ∨
      content.length > cfg.max_text_length) :
    add_item cfg s content content_type now = (none, s) :=
  add_item_none cfg s content content_type now h

theorem record_fails_closed_w :
    (isBlank "   " = true) ∧
    add_item cfgDefault ⟨[], 25, FileState.missing⟩ "   " "text" 7 =
      (none, ⟨[], 25, FileState.missing⟩) :=
  ⟨by decide,
   record_fails_closed cfgDefault ⟨[], 25, FileState.missing⟩ "   " "text" 7
     (Or.inr (Or.inl (by decide)))⟩

/-- C3 counterexample: recording ("ab", "text") at time 1 and again at time 2
leaves the surviving entry with captured_at 2, not the first recording's
timestamp 1 — the code pops the duplicate and creates a fresh item, so a
moved-to-front duplicate does not keep its original captured_at. -/
theorem duplicate_refreshes_timestamp_cex :
    ((add_item cfgDefault
        (add_item cfgDefault ⟨[], 25, FileState.missing⟩ "ab" "text" 1).2
        "ab" "text" 2).2.items.map (fun i => i.timestamp) = [2]) ∧
    ¬ ((add_item cfgDefault
        (add_item cfgDefault ⟨[], 25, FileState.missing⟩ "ab" "text" 1).2
        "ab" "text" 2).2.items.map (fun i => i.timestamp) = [1]) :=
  ⟨by decide, by decide⟩

/-- C3 (amended): recording the same (content, content_type) pair twice in a
row leaves exactly one entry for that pair, at index 0, and that entry's
captured_at equals the timestamp of the second recording — the duplicate is
removed and a fresh item is inserted, so the moved-to-front entry gets a
fresh captured_at rather than keeping its original one. -/
theorem duplicate_record_single_entry (cfg : Config) (s : HistoryState)
    (c k : String) (t1 t2 : Nat)
    (hv : ¬(c = "" ∨ isBlank c = true))
    (hl : ¬(c.length < cfg.min_text_length ∨ c.length > cfg.max_text_length))
    (hmax : 1 ≤ s.max_items)
    (hdup : pairCount c k s.items ≤ 1) :
    (add_item cfg (add_item cfg s c k t1).2 c k t2).2.items.head? =
      some (ClipboardItem.make c k t2) ∧
    pairCount c k (add_item cfg (add_item cfg s c k t1).2 c k t2).2.items = 1 := by
  obtain ⟨mm, hm⟩ : ∃ mm, s.max_items = mm + 1 := ⟨s.max_items - 1, by omega⟩
  rw [add_item_some cfg s c k t1 hv hl]
  set s1 : HistoryState := save_history { s with items :=
    (ClipboardItem.make c k t1 :: removeFirstMatch c k s.items).take s.max_items }
    with hs1
  have hs1items : s1.items =
      (ClipboardItem.make c k t1 :: removeFirstMatch c k s.items).take s.max_items :=
    rfl
  have hs1max : s1.max_items = s.max_items := rfl
  rw [add_item_some cfg s1 c k t2 hv hl]
  have hcount1 : pairCount c k s1.items ≤ 1 := by
    rw [hs1items]
    have h1 := pairCount_take_le c k
      (ClipboardItem.make c k t1 :: removeFirstMatch c k s.items) s.max_items
    have h2 := pairCount_make c k t1 (removeFirstMatch c k s.items)
    have h3 := pairCount_removeFirstMatch c k s.items hdup
    omega
  have hrf : pairCount c k (removeFirstMatch c k s1.items) = 0 :=
    pairCount_removeFirstMatch c k s1.items hcount1
  constructor
  · simp only [save_history_items]
    rw [hs1max, hm, List.take_succ_cons, List.head?_cons]
  · simp only [save_history_items]
    rw [hs1max, hm, List.take_succ_cons, pairCount_make]
    have := pairCount_take_le c k (removeFirstMatch c k s1.items) mm
    omega

theorem duplicate_record_single_entry_w :
    (¬("ab" = "" ∨ isBlank "ab" = true)) ∧
    (add_item cfgDefault
        (add_item cfgDefault ⟨[], 25, FileState.missing⟩ "ab" "text" 1).2
        "ab" "text" 2).2.items.head? = some (ClipboardItem.make "ab" "text" 2) ∧
    pairCount "ab" "text" (add_item cfgDefault
        (add_item cfgDefault ⟨[], 25, FileState.missing⟩ "ab" "text" 1).2
        "ab" "text" 2).2.items = 1 := by
  have h := duplicate_record_single_entry cfgDefault ⟨[], 25, FileState.missing⟩
    "ab" "text" 1 2 (by decide) (by decide) (by decide) (by decide)
  exact ⟨by decide, h.1, h.2⟩

/-- C4: the claim that load never raises fails on the code: a durable file of
well-formed JSON whose timestamp field is a number (TypeError) or an
unparseable timestamp string (ValueError) makes load_history propagate the
exception to the caller, because the except clause catches only
json.JSONDecodeError, IOError and KeyError.  The other malformed states are
tolerated as the claim says: a missing file leaves the history as is, an
unparseable file and a missing field reset it to empty. -/
theorem load_history_raises_on_invalid_field :
    load_history (FileState.json (JVal.arr [JVal.obj
      [("content", JVal.str "a"), ("content_type", JVal.str "text"),
       ("timestamp", JVal.num 123)]])) [] = .error .typeError ∧
    load_history (FileState.json (JVal.arr [JVal.obj
      [("content", JVal.str "a"), ("content_type", JVal.str "text"),
       ("timestamp", JVal.str "not-a-date")]])) [] = .error .valueError ∧
    load_history FileState.missing [ClipboardItem.make "a" "text" 1] =
      .ok [ClipboardItem.make "a" "text" 1] ∧
    load_history FileState.invalid [ClipboardItem.make "a" "text" 1] = .ok [] ∧
    load_history (FileState.json (JVal.arr [JVal.obj
      [("content", JVal.str "a"), ("content_type", JVal.str "text")]]))
      [ClipboardItem.make "a" "text" 1] = .ok [] :=
  ⟨rfl, rfl, rfl, rfl, rfl⟩

/-- C5: round-trip — save_history followed by load_history on an untouched
store reproduces the identical ordered entry list: content, content_type,
timestamp and the re-derived preview of every entry match, in order.  The
hypothesis states that every stored item carries the preview derived by its
constructor, which holds for every item the code ever builds. -/
theorem save_then_load_round_trip (s : HistoryState)
    (hwf : ∀ i ∈ s.items, i = ClipboardItem.make i.content i.content_type i.timestamp) :
    load_history (save_history s).file s.items = .ok s.items := by
  have hfile : (save_history s).file = FileState.json (serializeItems s.items) := rfl
  rw [hfile]
  have hload : load_history (FileState.json (serializeItems s.items)) s.items =
      (match mapFromDict (s.items.map to_dict) with
       | .ok newItems => Except.ok newItems
       | .error .keyError => Except.ok []
       | .error e => Except.error e) := rfl
  rw [hload, mapFromDict_map_to_dict s.items hwf]

theorem save_then_load_round_trip_w :
    (∀ i ∈ [ClipboardItem.make "hello  world" "text" 42,
            ClipboardItem.make "pic" "image" 99],
        i = ClipboardItem.make i.content i.content_type i.timestamp) ∧
    load_history (save_history ⟨[ClipboardItem.make "hello  world" "text" 42,
        ClipboardItem.make "pic" "image" 99], 25, FileState.missing⟩).file
      [ClipboardItem.make "hello  world" "text" 42,
       ClipboardItem.make "pic" "image" 99] =
      .ok [ClipboardItem.make "hello  world" "text" 42,
           ClipboardItem.make "pic" "image" 99] :=
  ⟨by decide,
   save_then_load_round_trip
     ⟨[ClipboardItem.make "hello  world" "text" 42,
       ClipboardItem.make "pic" "image" 99], 25, FileState.missing⟩ (by decide)⟩

/-- C6: with max_history_items = 3, recording "a", "b", "c", "d" into an
initially empty store yields ["d", "c", "b"] with "a" evicted; in general a
successful insert leaves exactly the first max_items entries of the
pre-trim list, discarding the excess oldest-by-position entries at the
tail. -/
theorem trim_removes_tail (cfg : Config) :
    ((record_seq ⟨1, 10000, true, 3⟩ ⟨[], 3, FileState.missing⟩
        [("a", "text", 1), ("b", "text", 2), ("c", "text", 3),
         ("d", "text", 4)]).items.map (fun i => i.content) = ["d", "c", "b"]) ∧
    (∀ (s : HistoryState) (c k : String) (t : Nat) (item : ClipboardItem)
        (s' : HistoryState), add_item cfg s c k t = (some item, s') →
        s'.items =
          (ClipboardItem.make c k t :: removeFirstMatch c k s.items).take
            s.max_items) := by
  constructor
  · decide
  · intro s c k t item s' h
    by_cases hv : c = "" ∨ isBlank c = true
    · rw [add_item_none cfg s c k t (hv.elim (fun h1 => Or.inl h1)
        (fun h1 => Or.inr (Or.inl h1)))] at h
      exact absurd (congrArg Prod.fst h) (by simp)
    · by_cases hl : c.length < cfg.min_text_length ∨ c.length > cfg.max_text_length
      · rw [add_item_none cfg s c k t (Or.inr (Or.inr hl))] at h
        exact absurd (congrArg Prod.fst h) (by simp)
      · rw [add_item_some cfg s c k t hv hl] at h
        have h2 := congrArg Prod.snd h
        simp only at h2
        rw [← h2, save_history_items]

theorem trim_removes_tail_w :
    ((record_seq ⟨1, 10000, true, 3⟩ ⟨[], 3, FileState.missing⟩
        [("a", "text", 1), ("b", "text", 2), ("c", "text", 3),
         ("d", "text", 4)]).items.map (fun i => i.content) = ["d", "c", "b"]) ∧
    (save_history { storeABC with items :=
        (ClipboardItem.make "x" "text" 5 ::
          removeFirstMatch "x" "text" storeABC.items).take storeABC.max_items }).items =
      (ClipboardItem.make "x" "text" 5 ::
        removeFirstMatch "x" "text" storeABC.items).take storeABC.max_items :=
  ⟨(trim_removes_tail cfgDefault).1,
   (trim_removes_tail cfgDefault).2 storeABC "x" "text" 5 _ _
     (add_item_some cfgDefault storeABC "x" "text" 5 (by decide) (by decide))⟩

/-- C7: with exclude_passwords enabled, content shorter than 50 characters
containing a symbol from "!@#$%^&*" is dropped by the watcher before any
record call — the monitor state, the history included, is unchanged, and
after feeding only such contents to a fresh monitor, get_items none is
empty; content failing the heuristic (when nonempty and different from the
last observed content) is passed to record. -/
theorem password_exclusion (cfg : Config) (hex : cfg.exclude_passwords = true) :
    (∀ (m : MonitorState) (content : String) (now : Nat),
        content.length < 50 → (∃ ch ∈ "!@#$%^&*".data, ch ∈ content.data) →
        on_clipboard_text_ready cfg m (some content) now = (m, none)) ∧
    (∀ (inputs : List (String × Nat)) (n : Nat) (f : FileState) (lc : String)
        (mon : Bool),
        (∀ p ∈ inputs, p.1.length < 50 ∧ ∃ ch ∈ "!@#$%^&*".data, ch ∈ p.1.data) →
        get_items (feed_seq cfg ⟨⟨[], n, f⟩, lc, mon⟩ inputs).history none = []) ∧
    (∀ (m : MonitorState) (content : String) (now : Nat),
        ¬(content.length < 50 ∧ ∃ ch ∈ "!@#$%^&*".data, ch ∈ content.data) →
        content ≠ "" → content ≠ m.last_content →
        on_clipboard_text_ready cfg m (some content) now =
          (MonitorState.mk (add_item cfg m.history content "text" now).2
            content m.monitoring,
           (add_item cfg m.history content "text" now).1)) := by
  refine ⟨fun m content now hlen hsym =>
    excluded_drop cfg m content now hex hlen hsym, ?_, ?_⟩
  · intro inputs n f lc mon h
    rw [feed_seq_excluded cfg hex inputs _ h]
    rfl
  · intro m content now hno h0 h1
    have hexc : should_exclude_content cfg content = false := by
      rw [Bool.eq_false_iff]
      intro htrue
      apply hno
      unfold should_exclude_content at htrue
      rw [hex] at htrue
      simp only [Bool.true_and, Bool.and_eq_true, decide_eq_true_eq,
        List.any_eq_true] at htrue
      obtain ⟨hlen, ch, hch, hcont⟩ := htrue
      exact ⟨hlen, ch, hch, by simpa [List.contains] using hcont⟩
    have hred : on_clipboard_text_ready cfg m (some content) now =
        (if content = "" then (m, none)
         else if content = m.last_content then (m, none)
         else if should_exclude_content cfg content = true then (m, none)
         else (MonitorState.mk (add_item cfg m.history content "text" now).2
                content m.monitoring,
               (add_item cfg m.history content "text" now).1)) := rfl
    rw [hred, if_neg h0, if_neg h1,
      if_neg (by rw [hexc]; exact Bool.false_ne_true)]

theorem password_exclusion_w :
    ("secret!1".length < 50 ∧ ∃ ch ∈ "!@#$%^&*".data, ch ∈ "secret!1".data) ∧
    on_clipboard_text_ready cfgDefault
      ⟨⟨[], 25, FileState.missing⟩, "", true⟩ (some "secret!1") 3 =
      (⟨⟨[], 25, FileState.missing⟩, "", true⟩, none) ∧
    get_items (feed_seq cfgDefault ⟨⟨[], 25, FileState.missing⟩, "", true⟩
      [("secret!1", 3)]).history none = [] :=
  ⟨by decide,
   (password_exclusion cfgDefault rfl).1 ⟨⟨[], 25, FileState.missing⟩, "", true⟩
     "secret!1" 3 (by decide) (by decide),
   (password_exclusion cfgDefault rfl).2.1 [("secret!1", 3)] 25
     FileState.missing "" true (by decide)⟩

/-- C8: when create is called while the marker records a currently-live
process — in particular a second create in the same running process
lifetime — the call fails with the already-running conflict reporting the
recorded process identifier, an error distinct from the I/O failure; when no
live process is recorded, create writes the current process identifier to
the marker. -/
theorem pid_create_conflict (alive : Int → Bool) (cur p : Int) (wf : Bool)
    (st : PidState) :
    (alive p = true → create alive cur wf ⟨some p⟩ =
      .error (.alreadyRunning (some p))) ∧
    (create alive cur false ⟨none⟩ = .ok ⟨some cur⟩) ∧
    (alive cur = true → create alive cur false ⟨some cur⟩ =
      .error (.alreadyRunning (some cur))) ∧
    ((is_running alive st).1 = false → create alive cur false st = .ok ⟨some cur⟩) := by
  refine ⟨?_, rfl, ?_, ?_⟩
  · intro ha
    simp [create, is_running, get_pid, ha]
  · intro ha
    simp [create, is_running, get_pid, ha]
  · intro hr
    simp [create, hr]

theorem pid_create_conflict_w :
    ((fun q => q == (42 : Int)) 42 = true) ∧
    create (fun q => q == (42 : Int)) 42 false ⟨none⟩ = .ok ⟨some 42⟩ ∧
    create (fun q => q == (42 : Int)) 42 false ⟨some 42⟩ =
      .error (.alreadyRunning (some 42)) :=
  ⟨by decide,
   (pid_create_conflict (fun q => q == (42 : Int)) 42 42 false ⟨none⟩).2.1,
   (pid_create_conflict (fun q => q == (42 : Int)) 42 42 false ⟨none⟩).2.2.1
     (by decide)⟩

/-- C9: for text-kind entries the preview is the whitespace-collapsed
content when at most 80 characters, and its 80-character truncation with an
ellipsis suffix otherwise (at most 80 visible characters before the
ellipsis); for every non-text kind it is a bracketed kind+time label; the
preview is derived from content, content_type and captured_at by the
constructor, and loading ignores whatever preview string was persisted,
re-deriving it instead. -/
theorem preview_derivation :
    (∀ (content : String) (t : Nat), (collapseWs content).length ≤ 80 →
        generate_preview content "text" t = String.mk (collapseWs content)) ∧
    (∀ (content : String) (t : Nat), (collapseWs content).length > 80 →
        generate_preview content "text" t =
          String.mk ((collapseWs content).take 80) ++ "..." ∧
        ((collapseWs content).take 80).length ≤ 80) ∧
    (∀ (k : String), k ≠ "text" → ∀ (c : String) (t : Nat),
        generate_preview c k t = "[" ++ pyTitle k ++ " - " ++ strftimeHMS t ++ "]") ∧
    (∀ (c k : String) (t : Nat),
        (ClipboardItem.make c k t).preview = generate_preview c k t) ∧
    (∀ (c k : String) (t : Nat) (junk : String),
        from_dict (JVal.obj [("content", JVal.str c), ("content_type", JVal.str k),
          ("timestamp", JVal.str (isoformat t)), ("preview", JVal.str junk)]) =
          .ok (ClipboardItem.make c k t)) := by
  refine ⟨?_, ?_, ?_, fun c k t => rfl, fun c k t junk => from_dict_entry c k t junk⟩
  · intro content t hle
    have hred : generate_preview content "text" t =
        (if (collapseWs content).length > 80 then
          String.mk ((collapseWs content).take 80) ++ "..."
         else String.mk (collapseWs content)) := rfl
    rw [hred, if_neg (by omega)]
  · intro content t hgt
    refine ⟨?_, ?_⟩
    · have hred : generate_preview content "text" t =
          (if (collapseWs content).length > 80 then
            String.mk ((collapseWs content).take 80) ++ "..."
           else String.mk (collapseWs content)) := rfl
      rw [hred, if_pos hgt]
    · rw [List.length_take]
      omega
  · intro k hk c t
    have hred : generate_preview c k t =
        (if k = "text" then
          (if (collapseWs c).length > 80 then
            String.mk ((collapseWs c).take 80) ++ "..."
           else String.mk (collapseWs c))
         else "[" ++ pyTitle k ++ " - " ++ strftimeHMS t ++ "]") := rfl
    rw [hred, if_neg hk]

theorem preview_derivation_w :
    ((collapseWs "hi   there").length ≤ 80 ∧
      generate_preview "hi   there" "text" 0 = String.mk (collapseWs "hi   there")) ∧
    ((collapseWs (String.mk (List.replicate 100 'a'))).length > 80 ∧
      generate_preview (String.mk (List.replicate 100 'a')) "text" 0 =
        String.mk ((collapseWs (String.mk (List.replicate 100 'a'))).take 80) ++ "...") ∧
    ("image" ≠ "text" ∧ generate_preview "pic" "image" 3725 =
      "[" ++ pyTitle "image" ++ " - " ++ strftimeHMS 3725 ++ "]") :=
  ⟨⟨by decide, preview_derivation.1 "hi   there" 0 (by decide)⟩,
   ⟨by decide, (preview_derivation.2.1 (String.mk (List.replicate 100 'a')) 0
     (by decide)).1⟩,
   ⟨by decide, preview_derivation.2.2.1 "image" (by decide) "pic" 3725⟩⟩

/-- C10: reload_config changes only the store's max_items bound and the
config; the items list, the monitoring flag and the running flag are
untouched — in particular a new maximum lower than the current length does
not trim the list during reload, and the new bound takes effect at the next
successful record call, whose resulting length is at most the new maximum. -/
theorem reload_config_frame (d : DaemonState) (newCfg : Config) :
    (reload_config d newCfg).history.items = d.history.items ∧
    (reload_config d newCfg).monitoring = d.monitoring ∧
    (reload_config d newCfg).running = d.running ∧
    (reload_config d newCfg).history.max_items = newCfg.max_history_items ∧
    (reload_config d newCfg).config = newCfg ∧
    (newCfg.max_history_items < d.history.items.length →
      newCfg.max_history_items < (reload_config d newCfg).history.items.length) ∧
    (∀ (c k : String) (t : Nat) (item : ClipboardItem) (s' : HistoryState),
        add_item newCfg (reload_config d newCfg).history c k t = (some item, s') →
        s'.items.length ≤ newCfg.max_history_items) := by
  refine ⟨rfl, rfl, rfl, rfl, rfl, fun h => h, ?_⟩
  intro c k t item s' h
  exact add_item_some_length newCfg (reload_config d newCfg).history c k t item s' h

theorem reload_config_frame_w :
    (reload_config daemonW cfgSmall).history.items = daemonW.history.items ∧
    (save_history { reloadedStoreW with items := trimmedZZ }).items.length ≤
      cfgSmall.max_history_items :=
  ⟨(reload_config_frame daemonW cfgSmall).1,
   (reload_config_frame daemonW cfgSmall).2.2.2.2.2.2 "zz" "text" 9 _ _
     (add_item_some cfgSmall reloadedStoreW "zz" "text" 9
       (by decide) (by decide))⟩

end Cliplet
